import Mathlib

set_option maxHeartbeats 1000000
set_option maxRecDepth 4096

/- Shallow embedding of the schema-driven validation and query-construction
engine of src/uploads/server.js: the field schema, the SQL type mapper and
DDL generator, the validator, and the insert-query builder.  JS strings are
modelled as Lean String via List Char operations, JS request-body values as
the inductive JSVal, and the JS numbers occurring in the validator's
arithmetic as exact integers and rationals (see the comments at jsParseInt,
jsParseFloat and numberRange).  The host URL parser (new URL) and date
parser (new Date), which no field of this schema ever reaches, are passed
in as parameters so every result holds for all of their behaviours. -/

/- ASCII whitespace, the portion of the JS whitespace class exercised by
this development; non-ASCII JS whitespace is not modelled. -/
def jsIsSpace (c : Char) : Bool :=
  c == ' ' || c == '\t' || c == '\n' || c == '\r' || c == '\x0b' || c == '\x0c'

/- The JS digit class (ASCII 0-9), as matched by the validator's regexes. -/
def digitB (c : Char) : Bool :=
  c == '0' || c == '1' || c == '2' || c == '3' || c == '4' ||
  c == '5' || c == '6' || c == '7' || c == '8' || c == '9'

/- Head tests for sign and dot characters, used to express the regex and
parser matches on the first character of a character list. -/
def headIsDash : List Char → Bool
  | '-' :: _ => true
  | _ => false

def headIsPlus : List Char → Bool
  | '+' :: _ => true
  | _ => false

def headIsDot : List Char → Bool
  | '.' :: _ => true
  | _ => false

/- Drop an optional leading sign (minus or plus). -/
def dropSign (l : List Char) : List Char :=
  if headIsDash l || headIsPlus l then l.tail else l

/- Drop an optional leading minus. -/
def dropDash (l : List Char) : List Char :=
  if headIsDash l then l.tail else l

/- Drop an optional leading plus. -/
def dropPlus (l : List Char) : List Char :=
  if headIsPlus l then l.tail else l

/- ASCII lowercasing, the portion of JS toLowerCase this schema exercises. -/
def lowerChar (c : Char) : Char :=
  if 'A' ≤ c ∧ c ≤ 'Z' then Char.ofNat (c.toNat + 32) else c

def toLowerS (s : String) : String :=
  (s.toList.map lowerChar).asString

/- JS String.prototype.trim over the modelled whitespace class. -/
def trimL (l : List Char) : List Char :=
  ((l.dropWhile jsIsSpace).reverse.dropWhile jsIsSpace).reverse

def jsTrim (s : String) : String :=
  (trimL s.toList).asString

/- strValue.replace(whitespace-regex-global, "") in the phone check. -/
def removeSpacesS (s : String) : String :=
  (s.toList.filter (fun c => !jsIsSpace c)).asString

/- strValue.replace(non-digit-regex-global, "").length in the phone check. -/
def countDigits (s : String) : Nat :=
  (s.toList.filter digitB).length

/- strValue.includes(".") -/
def containsDot (s : String) : Bool :=
  s.toList.contains '.'

/- strValue.startsWith("-") -/
def startsDash (s : String) : Bool :=
  headIsDash s.toList

/- JS String.prototype.replace with a plain string pattern replaces only the
first occurrence: strValue.replace("-", ""). -/
def removeFirstDashL : List Char → List Char
  | [] => []
  | '-' :: t => t
  | c :: t => c :: removeFirstDashL t

def removeFirstDash (s : String) : String :=
  (removeFirstDashL s.toList).asString

/- e.replace(".", "") in the allowed-extensions error message. -/
def removeFirstDotL : List Char → List Char
  | [] => []
  | '.' :: t => t
  | c :: t => c :: removeFirstDotL t

def removeFirstDotStr (s : String) : String :=
  (removeFirstDotL s.toList).asString

/- The first two components of strValue.split("."), as taken by the
destructuring [integerPart = "", decimalPart = ""] in the amount check. -/
def splitDot (s : String) : String × String :=
  let l := s.toList
  let ip := l.takeWhile (fun c => !(c == '.'))
  let rest := l.dropWhile (fun c => !(c == '.'))
  match rest with
  | _ :: t => (ip.asString, (t.takeWhile (fun c => !(c == '.'))).asString)
  | [] => (ip.asString, "")

def endsWithS (s suffixStr : String) : Bool :=
  suffixStr.toList.isSuffixOf s.toList

def natOfDigits (l : List Char) : Nat :=
  l.foldl (fun a c => a * 10 + (c.toNat - 48)) 0

/- JS parseInt(s, 10): skip leading whitespace, optional sign, then the
longest digit prefix; none models NaN.  The 0x prefix form is not modelled
(no schema limit string uses it).  JS evaluates the result as an IEEE
double; here the value is kept exact, see the comment at numberRange. -/
def jsParseInt (s : String) : Option Int :=
  let l := s.toList.dropWhile jsIsSpace
  let neg := headIsDash l
  let l2 := dropSign l
  let ds := l2.takeWhile digitB
  if ds.isEmpty then none
  else some ((if neg then -1 else 1) * (natOfDigits ds : Int))

/- parseInt(s) || d : NaN and 0 are falsy and fall back to the default. -/
def jsParseIntOrD (d : Int) (s : String) : Int :=
  match jsParseInt s with
  | none => d
  | some v => if v = 0 then d else v

/- JS ToNumber on a string, restricted to integer-form strings (optional
sign, digits, surrounding whitespace); the full grammar (fractions,
exponents, hex) is not modelled: the only use site multiplies a schema
limit string, and every limit in this schema is a plain digit string or
empty.  none models NaN; the empty string converts to 0. -/
def jsToNumberInt (s : String) : Option Int :=
  let t := trimL s.toList
  if t.isEmpty then some 0
  else
    let neg := headIsDash t
    let t2 := dropSign t
    if t2.isEmpty || !t2.all digitB then none
    else some ((if neg then -1 else 1) * (natOfDigits t2 : Int))

/- An exact decimal value mantissa / 10 ^ fracDigits, the result of parsing
a sign-digits-dot-digits string. -/
structure DecNum where
  mantissa : Int
  fracDigits : Nat
deriving DecidableEq

/- The JS Number.isInteger test on an exact decimal. -/
def DecNum.isInt (d : DecNum) : Bool :=
  d.mantissa % (10 : Int) ^ d.fracDigits == 0

/- The integer value of an integral exact decimal (Math.floor of it). -/
def DecNum.intPart (d : DecNum) : Int :=
  d.mantissa / (10 : Int) ^ d.fracDigits

/- JS parseFloat: skip leading whitespace, optional sign, digits, optional
fraction.  Exponent and Infinity forms are not modelled; every string the
program feeds to parseFloat has already matched the validator's plain
sign-digits-dot-digits shape.  none models NaN; the value is kept exact
where JS rounds to an IEEE double, which agrees on the integrality test
applied to it for inputs of this schema's digit widths. -/
def jsParseFloat (s : String) : Option DecNum :=
  let l := s.toList.dropWhile jsIsSpace
  let neg := headIsDash l
  let l2 := dropSign l
  let ds := l2.takeWhile digitB
  let rest := l2.dropWhile digitB
  let frac := if headIsDot rest then rest.tail.takeWhile digitB else []
  if ds.isEmpty && frac.isEmpty then none
  else
    let m : Int := (natOfDigits ds : Int) * (10 : Int) ^ frac.length + (natOfDigits frac : Int)
    some ⟨(if neg then -m else m), frac.length⟩

/- String(numValue).length for a nonnegative exact integer. -/
def natDigitCount (n : Nat) : Nat :=
  (Nat.repr n).length

/- A value arriving in the request body: multipart fields are strings; a
JSON body may also carry numbers (modelled for integers) and null. -/
inductive JSVal where
  | str (s : String)
  | num (n : Int)
  | null
deriving DecidableEq

/- JS String(value). -/
def jsToString : JSVal → String
  | .str s => s
  | .num n => toString n
  | .null => "null"

/- An uploaded file as multer delivers it: files[name][0]. -/
structure JSFile where
  originalname : String
  size : Nat
  buffer : List Nat
deriving DecidableEq

inductive FieldType where
  | text | description | number | amount | yesno | datetime | date
  | email | phone | url | photo | file
deriving DecidableEq

inductive ExtSpec where
  | all
  | list (exts : List String)
deriving DecidableEq

structure FileConfig where
  maxSize : Nat
  extensions : ExtSpec
deriving DecidableEq

structure FieldSpec where
  type : FieldType
  limit : String
  scale : String
  required : Bool
  unique : Bool
  allowNegative : Bool
  fileConfig : Option FileConfig
deriving DecidableEq

def TABLE_NAME : String := "Ring"

def AUTO_CREATED_AT : Bool := true

def nameF : FieldSpec := ⟨.text, "20", "", true, false, true, none⟩
def phoneF : FieldSpec := ⟨.phone, "10", "", true, false, false, none⟩
def emailF : FieldSpec := ⟨.email, "", "", false, false, false, none⟩
def ringSizeF : FieldSpec := ⟨.amount, "10", "2", true, false, true, none⟩
def ssF : FieldSpec := ⟨.photo, "", "", true, false, false, some ⟨10, .all⟩⟩
def caretF : FieldSpec := ⟨.number, "2", "", true, false, true, none⟩
def aadharF : FieldSpec := ⟨.photo, "", "", true, false, false, some ⟨10, .all⟩⟩

/- The schema object; insertion order is the iteration order of
Object.entries and Object.keys for these (non-index-like) keys. -/
def schema : List (String × FieldSpec) :=
  [("name", nameF), ("phone", phoneF), ("email", emailF),
   ("ring_size", ringSizeF), ("ss", ssF), ("caret", caretF),
   ("aadhar", aadharF)]

/- Plain own-property lookup in an object modelled as an ordered
association list (prototype-chain property names are not modelled). -/
def lookupA {α : Type} : List (String × α) → String → Option α
  | [], _ => none
  | (k, v) :: rest, key => if k = key then some v else lookupA rest key

abbrev Body : Type := List (String × JSVal)

abbrev Files : Type := List (String × JSFile)

/- The declared maxMegabytes of a field's file constraint. -/
def maxMegabytesOf (f : FieldSpec) : Nat :=
  match f.fileConfig with
  | some cfg => cfg.maxSize
  | none => 0

/- typeMap of server.js.  field.limit || default follows JS string
truthiness: the empty string falls back to the default, any other limit
string is interpolated as is. -/
def typeMap (t : FieldType) (f : FieldSpec) : String :=
  match t with
  | .text => "VARCHAR(" ++ (if f.limit = "" then "50" else f.limit) ++ ")"
  | .description => "VARCHAR(" ++ (if f.limit = "" then "500" else f.limit) ++ ")"
  | .number =>
    let digits := jsParseIntOrD 10 f.limit
    if digits ≤ 9 then "INTEGER"
    else if digits ≤ 18 then "BIGINT"
    else "NUMERIC(" ++ toString digits ++ ")"
  | .amount =>
    "DECIMAL(" ++ (if f.limit = "" then "10" else f.limit) ++ ", " ++
      (if f.scale = "" then "2" else f.scale) ++ ")"
  | .yesno => "BOOLEAN"
  | .datetime => "TIMESTAMP"
  | .date => "DATE"
  | .email => "VARCHAR(255)"
  | .phone => "VARCHAR(" ++ (if f.limit = "" then "15" else f.limit) ++ ")"
  | .url => "VARCHAR(500)"
  | .photo => "BYTEA"
  | .file => "BYTEA"

/- createTableSQL of server.js: accumulate one column text per schema entry
each followed by ",\n", append the created_at column, then slice(0, -2)
drops the trailing comma and newline. -/
def createTableSQL : String :=
  let columns :=
    schema.foldl
      (fun acc p =>
        acc ++ "\"" ++ p.1 ++ "\" " ++ typeMap p.2.type p.2 ++
          (if p.2.required then " NOT NULL" else "") ++
          (if p.2.unique then " UNIQUE" else "") ++ ",\n")
      "\"id\" BIGINT GENERATED ALWAYS AS IDENTITY PRIMARY KEY,\n"
  let columns :=
    columns ++
      (if AUTO_CREATED_AT then
        "\"created_at\" TIMESTAMP NOT NULL DEFAULT CURRENT_TIMESTAMP,\n"
      else "")
  "CREATE TABLE IF NOT EXISTS \"" ++ TABLE_NAME ++ "\" (\n" ++
    (columns.toList.dropLast.dropLast).asString ++ "\n);"

/- One column of the DDL as the specification words it: quoted name, native
type from the type mapper, NOT NULL iff required, UNIQUE iff unique. -/
def colSpec (n : String) (f : FieldSpec) : String :=
  "\"" ++ n ++ "\" " ++ typeMap f.type f ++
    (if f.required then " NOT NULL" else "") ++
    (if f.unique then " UNIQUE" else "")

/- The DDL as the specification describes it: identity primary key column
first, one column per field in declaration order, then the
creation-timestamp column, joined into one create-if-not-exists statement. -/
def ddlSpec : String :=
  "CREATE TABLE IF NOT EXISTS \"" ++ TABLE_NAME ++ "\" (\n" ++
    String.intercalate ",\n"
      (["\"id\" BIGINT GENERATED ALWAYS AS IDENTITY PRIMARY KEY"] ++
        schema.map (fun p => colSpec p.1 p.2) ++
        ["\"created_at\" TIMESTAMP NOT NULL DEFAULT CURRENT_TIMESTAMP"]) ++
    "\n);"

structure Err where
  error : String
  field : String
deriving DecidableEq

/- validateFile of server.js.  The size bound is (fieldConfig.limit || 10)
megabytes: the field's own limit string with JS truthiness (empty falls
back to 10), multiplied via ToNumber; a NaN bound compares false and never
rejects.  For every photo/file field of this schema limit is empty and
fileConfig.maxSize is 10, so the enforced bound is 10 megabytes either
way. -/
def validateFile (file : JSFile) (f : FieldSpec) : Option String :=
  let maxMB : Option Int := if f.limit = "" then some 10 else jsToNumberInt f.limit
  let tooBig := match maxMB with
    | none => false
    | some m => (file.size : Int) > m * 1048576
  if tooBig then
    some ("File size exceeds " ++ (if f.limit = "" then "10" else f.limit) ++ "MB limit")
  else
    match f.fileConfig with
    | none => none
    | some cfg =>
      match cfg.extensions with
      | .all => none
      | .list exts =>
        let fn := toLowerS file.originalname
        if exts.any (fun e => endsWithS fn (toLowerS e)) then none
        else
          some ("File type not allowed. Allowed types: " ++
            String.intercalate ", " (exts.map removeFirstDotStr))

/- The email regex: nonempty run without whitespace or at-sign, an at-sign,
then a run containing a dot with at least one allowed character on each
side; equivalently, exactly one at-sign, no whitespace, nonempty local
part, and a dot at an interior position of the domain part. -/
def emailShape (s : String) : Bool :=
  let cs := s.toList
  let l := cs.takeWhile (fun c => !(c == '@'))
  let r := (cs.dropWhile (fun c => !(c == '@'))).tail
  cs.contains '@' && !r.contains '@' && !l.isEmpty &&
    (l ++ r).all (fun c => !jsIsSpace c) && (r.tail.dropLast).contains '.'

def phoneCharB (c : Char) : Bool :=
  digitB c || jsIsSpace c || c == '-' || c == '(' || c == ')'

/- The phone regex, applied after whitespace removal: an optional leading
plus, then 10 to 15 characters drawn from digits, whitespace, hyphens and
parentheses. -/
def phoneShape (s : String) : Bool :=
  let r := dropPlus s.toList
  decide (10 ≤ r.length) && decide (r.length ≤ 15) && r.all phoneCharB

/- The numeric shape regex: optional minus, digits, optional dot and
digits. -/
def numShape (s : String) : Bool :=
  let r := dropDash s.toList
  let ds := r.takeWhile digitB
  let rest := r.dropWhile digitB
  !ds.isEmpty &&
    (rest.isEmpty || (headIsDot rest && !rest.tail.isEmpty && rest.tail.all digitB))

def oor (a b : Option Err) : Option Err :=
  match a with
  | some e => some e
  | none => b

def emailBlock (n : String) (f : FieldSpec) (sv : String) : Option Err :=
  if f.type = FieldType.email ∧ emailShape sv = false then
    some ⟨n ++ " must be a valid email address", n⟩
  else none

def urlBlock (urlOk : String → Bool) (n : String) (f : FieldSpec) (sv : String) : Option Err :=
  if f.type = FieldType.url ∧ urlOk sv = false then
    some ⟨n ++ " must be a valid URL", n⟩
  else none

def phoneBlock (n : String) (f : FieldSpec) (sv : String) : Option Err :=
  if f.type = FieldType.phone then
    if phoneShape (removeSpacesS sv) = false then
      some ⟨n ++ " must be a valid phone number", n⟩
    else
      let maxLength := jsParseIntOrD 15 f.limit
      if (countDigits sv : Int) > maxLength then
        some ⟨n ++ " exceeds " ++ toString maxLength ++ " digits", n⟩
      else none
  else none

/- Text length: runs only when field.limit is truthy; parseInt without a
fallback, so a NaN limit compares false and never rejects. -/
def textLenBlock (n : String) (f : FieldSpec) (sv : String) : Option Err :=
  if (f.type = FieldType.text ∨ f.type = FieldType.description) ∧ f.limit ≠ "" then
    match jsParseInt f.limit with
    | some m =>
      if (sv.length : Int) > m then
        some ⟨n ++ " exceeds " ++ toString m ++ " characters", n⟩
      else none
    | none => none
  else none

/- The number range checks.  numValue is Math.abs(parseInt(strValue)) and
the digit count is String(numValue).length; JS computes both through IEEE
doubles while this model keeps them exact.  Every string reaching this
point has already matched the sign-digits shape with no dot, and the one
number field of this schema has digit limit 2, where the double and the
exact computation accept and reject exactly the same strings with the same
message. -/
def numberRange (n : String) (f : FieldSpec) (sv : String) : Option Err :=
  let numValue : Nat := ((jsParseInt sv).getD 0).natAbs
  let maxDigits : Int := jsParseIntOrD 10 f.limit
  if (natDigitCount numValue : Int) > maxDigits then
    some ⟨n ++ " exceeds " ++ toString maxDigits ++ " digits", n⟩
  else if maxDigits ≤ 9 ∧ numValue > 2147483647 then
    some ⟨n ++ " exceeds INTEGER maximum value", n⟩
  else if maxDigits ≤ 18 ∧ numValue > 9223372036854775807 then
    some ⟨n ++ " exceeds BIGINT maximum value", n⟩
  else none

def gtO (a : Nat) (o : Option Int) : Bool :=
  match o with
  | some m => decide ((a : Int) > m)
  | none => false

def optIntStr (o : Option Int) : String :=
  match o with
  | some m => toString m
  | none => "NaN"

/- The amount precision checks: strip the first minus, split on the dot,
compare part lengths against limit minus scale and scale (NaN bounds
compare false), then re-check the sign. -/
def amountPrec (n : String) (f : FieldSpec) (sv : String) : Option Err :=
  let stripped := removeFirstDash sv
  let ip := (splitDot stripped).1
  let dp := (splitDot stripped).2
  let limitO : Option Int := if f.limit = "" then some 10 else jsParseInt f.limit
  let scaleO : Option Int := if f.scale = "" then some 2 else jsParseInt f.scale
  let maxIntegerO : Option Int :=
    match limitO, scaleO with
    | some l, some s => some (l - s)
    | _, _ => none
  if gtO ip.length maxIntegerO then
    some ⟨n ++ " integer part exceeds " ++ optIntStr maxIntegerO ++ " digits", n⟩
  else if gtO dp.length scaleO then
    some ⟨n ++ " decimal part exceeds " ++ optIntStr scaleO ++ " places", n⟩
  else if f.allowNegative = false ∧ startsDash sv = true then
    some ⟨n ++ " must be a positive amount", n⟩
  else none

def numericBlock (n : String) (f : FieldSpec) (sv : String) : Option Err :=
  if f.type = FieldType.number ∨ f.type = FieldType.amount then
    if numShape sv = false then
      some ⟨n ++ " must be a valid number", n⟩
    else if f.type = FieldType.number ∧ containsDot sv = true then
      some ⟨n ++ " must be an integer (no decimals)", n⟩
    else if f.allowNegative = false ∧ startsDash sv = true then
      some ⟨n ++ " must be a positive number", n⟩
    else if f.type = FieldType.number then numberRange n f sv
    else amountPrec n f sv
  else none

def dateBlock (dateOk : String → Bool) (n : String) (f : FieldSpec) (sv : String) : Option Err :=
  if (f.type = FieldType.datetime ∨ f.type = FieldType.date) ∧ dateOk sv = false then
    some ⟨n ++ " must be a valid date", n⟩
  else none

/- The per-type checks of the validator loop body, in source order; each
block applies only to its own field type, so the early returns of the
sequential ifs are the first some of this chain. -/
def scalarChecks (urlOk dateOk : String → Bool) (n : String) (f : FieldSpec) (sv : String) : Option Err :=
  oor (emailBlock n f sv)
    (oor (urlBlock urlOk n f sv)
      (oor (phoneBlock n f sv)
        (oor (textLenBlock n f sv)
          (oor (numericBlock n f sv)
            (dateBlock dateOk n f sv)))))

/- One iteration of the validator's field loop: presence first (a missing
file for required file fields; undefined, null or whitespace-only values
for scalar fields, non-required blanks skipped), then the per-type rules
on the trimmed value. -/
def fieldCheck (urlOk dateOk : String → Bool) (n : String) (f : FieldSpec)
    (body : Body) (files : Files) : Option Err :=
  if f.type = FieldType.photo ∨ f.type = FieldType.file then
    match lookupA files n with
    | none => if f.required then some ⟨n ++ " is required", n⟩ else none
    | some fl =>
      match validateFile fl f with
      | some msg => some ⟨msg, n⟩
      | none => none
  else
    match lookupA body n with
    | none => if f.required then some ⟨n ++ " is required", n⟩ else none
    | some v =>
      if v = JSVal.null then
        (if f.required then some ⟨n ++ " is required", n⟩ else none)
      else
        let sv := jsTrim (jsToString v)
        if sv = "" then
          (if f.required then some ⟨n ++ " is required", n⟩ else none)
        else scalarChecks urlOk dateOk n f sv

/- The extra-field loop over the incoming scalar keys in arrival order. -/
def extraFieldsCheck : Body → Option Err
  | [] => none
  | (k, _) :: rest =>
    if (lookupA schema k).isSome then extraFieldsCheck rest
    else some ⟨"Extra field not allowed: " ++ k, k⟩

/- The extra-file loop over the incoming file keys in arrival order. -/
def extraFilesCheck : Files → Option Err
  | [] => none
  | (k, _) :: rest =>
    match lookupA schema k with
    | some f =>
      if f.type = FieldType.photo ∨ f.type = FieldType.file then extraFilesCheck rest
      else some ⟨"Extra file not allowed: " ++ k, k⟩
    | none => some ⟨"Extra file not allowed: " ++ k, k⟩

def validateLoop (urlOk dateOk : String → Bool) (body : Body) (files : Files) :
    List (String × FieldSpec) → Option Err
  | [] => oor (extraFieldsCheck body) (extraFilesCheck files)
  | (n, f) :: rest =>
    match fieldCheck urlOk dateOk n f body files with
    | some e => some e
    | none => validateLoop urlOk dateOk body files rest

/- validate of server.js: the declared-field loop with early return, then
the extra scalar keys, then the extra file keys. -/
def validate (urlOk dateOk : String → Bool) (body : Body) (files : Files) : Option Err :=
  validateLoop urlOk dateOk body files schema

/- A value bound into the parameterized insert. -/
inductive SQLValue where
  | intVal (n : Int)
  | decVal (d : DecNum)
  | nanVal
  | boolVal (b : Bool)
  | strVal (s : String)
  | bytesVal (b : List Nat)
  | rawVal (v : JSVal)
deriving DecidableEq

/- The yesno coercion of buildInsertQuery: String(value).toLowerCase()
compared to "true", then strict equality against "1", the number 1, "yes"
and "on". -/
def jsYesno (v : JSVal) : Bool :=
  toLowerS (jsToString v) == "true" || v == JSVal.str "1" || v == JSVal.num 1 ||
    v == JSVal.str "yes" || v == JSVal.str "on"

/- The yesno coercion as the specification words it: boolean true iff the
textual value case-insensitively equals one of true, 1, yes, on, or the
raw value is literally the number 1. -/
def claimYesnoSpec (v : JSVal) : Bool :=
  ["true", "1", "yes", "on"].contains (toLowerS (jsToString v)) || v == JSVal.num 1

/- The per-type coercion of buildInsertQuery on a present scalar value.
number: parseFloat, raise unless integral, bind the integer; amount:
parseFloat (NaN binds as NaN); yesno: jsYesno; string types: trimmed
string; date types: raise when the host date parser rejects, else bind its
normalized ISO string (jsDate models new Date + toISOString); photo/file
never reach this function. -/
def coerceScalar (jsDate : JSVal → Option String) (n : String) (t : FieldType)
    (v : JSVal) : Except Err SQLValue :=
  match t with
  | .number =>
    match jsParseFloat (jsToString v) with
    | none => .error ⟨n ++ " must be an integer", n⟩
    | some d =>
      if d.isInt then .ok (SQLValue.intVal d.intPart)
      else .error ⟨n ++ " must be an integer", n⟩
  | .amount =>
    match jsParseFloat (jsToString v) with
    | none => .ok SQLValue.nanVal
    | some d => .ok (SQLValue.decVal d)
  | .yesno => .ok (SQLValue.boolVal (jsYesno v))
  | .text => .ok (SQLValue.strVal (jsTrim (jsToString v)))
  | .description => .ok (SQLValue.strVal (jsTrim (jsToString v)))
  | .email => .ok (SQLValue.strVal (jsTrim (jsToString v)))
  | .phone => .ok (SQLValue.strVal (jsTrim (jsToString v)))
  | .url => .ok (SQLValue.strVal (jsTrim (jsToString v)))
  | .datetime =>
    match jsDate v with
    | none => .error ⟨n ++ " must be a valid date", n⟩
    | some iso => .ok (SQLValue.strVal iso)
  | .date =>
    match jsDate v with
    | none => .error ⟨n ++ " must be a valid date", n⟩
    | some iso => .ok (SQLValue.strVal iso)
  | .photo => .ok (SQLValue.rawVal v)
  | .file => .ok (SQLValue.rawVal v)

/- The field loop of buildInsertQuery: file fields contribute their buffer
when present, raise when required and absent, are omitted otherwise;
scalar fields absent from the body raise when required and are omitted
otherwise; present scalar values are coerced, and the first raise aborts
the build. -/
def buildLoop (jsDate : JSVal → Option String) (body : Body) (files : Files) :
    List (String × FieldSpec) → Except Err (List String × List SQLValue)
  | [] => .ok ([], [])
  | (n, f) :: rest =>
    if f.type = FieldType.photo ∨ f.type = FieldType.file then
      match lookupA files n with
      | some fl =>
        match buildLoop jsDate body files rest with
        | .error e => .error e
        | .ok (cs, vs) =>
          .ok (("\"" ++ n ++ "\"") :: cs, SQLValue.bytesVal fl.buffer :: vs)
      | none =>
        if f.required then .error ⟨n ++ " is required", n⟩
        else buildLoop jsDate body files rest
    else
      match lookupA body n with
      | none =>
        if f.required then .error ⟨n ++ " is required", n⟩
        else buildLoop jsDate body files rest
      | some v =>
        match coerceScalar jsDate n f.type v with
        | .error e => .error e
        | .ok sv =>
          match buildLoop jsDate body files rest with
          | .error e => .error e
          | .ok (cs, vs) => .ok (("\"" ++ n ++ "\"") :: cs, sv :: vs)

structure InsertQuery where
  text : String
  values : List SQLValue
deriving DecidableEq

/- buildInsertQuery of server.js: columns and values from the field loop,
positional placeholders, returning the generated id and creation
timestamp. -/
def buildInsertQuery (jsDate : JSVal → Option String) (body : Body) (files : Files) :
    Except Err InsertQuery :=
  match buildLoop jsDate body files schema with
  | .error e => .error e
  | .ok (cols, vals) =>
    .ok ⟨"INSERT INTO \"" ++ TABLE_NAME ++ "\" (" ++ String.intercalate "," cols ++
          ") VALUES (" ++
          String.intercalate ","
            ((List.range vals.length).map (fun i => "$" ++ toString (i + 1))) ++
          ") RETURNING id, created_at", vals⟩

/- Has the key a declared field spec (the extra-scalar-key test). -/
def isDeclared (k : String) : Bool :=
  (lookupA schema k).isSome

/- Is the key a declared photo/file field (the extra-file-key test). -/
def isFileDeclared (k : String) : Bool :=
  match lookupA schema k with
  | some f => decide (f.type = FieldType.photo ∨ f.type = FieldType.file)
  | none => false

/- Absent, null, or blank after trimming: the presence test for scalar
fields. -/
def isBlankOpt : Option JSVal → Bool
  | none => true
  | some .null => true
  | some v => jsTrim (jsToString v) == ""

/- Concrete instantiations of the host URL and date parsers, used by the
closed scenario computations; no field of this schema consults either. -/
def urlOkF : String → Bool := fun _ => false

def dateOkF : String → Bool := fun _ => false

def jsDateF : JSVal → Option String := fun _ => none

def ssFile : JSFile := ⟨"ss.png", 2048, [137, 80]⟩

def aadharFile : JSFile := ⟨"aadhar.jpg", 4096, [255, 216]⟩

def bigFile : JSFile := ⟨"big.png", 10485761, [1]⟩

def scenarioFiles : Files := [("ss", ssFile), ("aadhar", aadharFile)]

def bigFiles : Files := [("ss", bigFile), ("aadhar", aadharFile)]

def extraFileMap : Files := [("ss", ssFile), ("aadhar", aadharFile), ("name", ssFile)]

def scenarioABody : Body :=
  [("name", JSVal.str "Alice"), ("phone", JSVal.str "9876543210"),
   ("ring_size", JSVal.str "120.50"), ("caret", JSVal.str "2")]

def scenarioBBody : Body :=
  [("name", JSVal.str "Alice"), ("phone", JSVal.str "9876543210"),
   ("caret", JSVal.str "2")]

def scenarioCBody : Body :=
  [("name", JSVal.str "Alice"), ("phone", JSVal.str "9876543210"),
   ("ring_size", JSVal.str "120.50"), ("caret", JSVal.str "2.5")]

def scenarioDBody : Body :=
  [("name", JSVal.str "Alice"), ("phone", JSVal.str "12345"),
   ("ring_size", JSVal.str "120.50"), ("caret", JSVal.str "2")]

def c10Body : Body :=
  scenarioABody ++ [("email", JSVal.str "   ")]

/- Character-class and head-test facts used by the parsing lemmas. -/

theorem toList_asString (l : List Char) : l.asString.toList = l := rfl

theorem ws_char_cases (c : Char) (h : jsIsSpace c = true) :
    c = ' ' ∨ c = '\t' ∨ c = '\n' ∨ c = '\r' ∨ c = '\x0b' ∨ c = '\x0c' := by
  simp only [jsIsSpace, Bool.or_eq_true, beq_iff_eq] at h
  tauto

theorem digit_char_cases (c : Char) (h : digitB c = true) :
    c = '0' ∨ c = '1' ∨ c = '2' ∨ c = '3' ∨ c = '4' ∨
    c = '5' ∨ c = '6' ∨ c = '7' ∨ c = '8' ∨ c = '9' := by
  simp only [digitB, Bool.or_eq_true, beq_iff_eq] at h
  tauto

theorem ws_not_digit (c : Char) (h : jsIsSpace c = true) : digitB c = false := by
  rcases ws_char_cases c h with rfl | rfl | rfl | rfl | rfl | rfl <;> rfl

theorem ws_ne_dot (c : Char) (h : jsIsSpace c = true) : c ≠ '.' := by
  rcases ws_char_cases c h with rfl | rfl | rfl | rfl | rfl | rfl <;> decide

theorem digit_ne_dash (c : Char) (h : digitB c = true) : c ≠ '-' := by
  rcases digit_char_cases c h with rfl|rfl|rfl|rfl|rfl|rfl|rfl|rfl|rfl|rfl <;> decide

theorem digit_ne_plus (c : Char) (h : digitB c = true) : c ≠ '+' := by
  rcases digit_char_cases c h with rfl|rfl|rfl|rfl|rfl|rfl|rfl|rfl|rfl|rfl <;> decide

theorem headIsDash_cons_of_ne {c : Char} {l : List Char} (h : c ≠ '-') :
    headIsDash (c :: l) = false := by
  unfold headIsDash
  split
  · next heq => exact absurd (List.head_eq_of_cons_eq heq.symm).symm h
  · rfl

theorem headIsPlus_cons_of_ne {c : Char} {l : List Char} (h : c ≠ '+') :
    headIsPlus (c :: l) = false := by
  unfold headIsPlus
  split
  · next heq => exact absurd (List.head_eq_of_cons_eq heq.symm).symm h
  · rfl

theorem headIsDot_cons_of_ne {c : Char} {l : List Char} (h : c ≠ '.') :
    headIsDot (c :: l) = false := by
  unfold headIsDot
  split
  · next heq => exact absurd (List.head_eq_of_cons_eq heq.symm).symm h
  · rfl

theorem dropSign_of_digit {c : Char} {l : List Char} (h : digitB c = true) :
    dropSign (c :: l) = c :: l := by
  unfold dropSign
  rw [headIsDash_cons_of_ne (digit_ne_dash c h), headIsPlus_cons_of_ne (digit_ne_plus c h)]
  rfl

/- Decomposition of a trim: dropping leading whitespace yields the trimmed
list followed by a whitespace-only suffix. -/
theorem trimL_decomp (cs : List Char) :
    ∃ w, cs.dropWhile jsIsSpace = trimL cs ++ w ∧ ∀ c ∈ w, jsIsSpace c = true := by
  refine ⟨((cs.dropWhile jsIsSpace).reverse.takeWhile jsIsSpace).reverse, ?_, ?_⟩
  · conv_lhs => rw [← (cs.dropWhile jsIsSpace).reverse_reverse,
      ← List.takeWhile_append_dropWhile (p := jsIsSpace) (l := (cs.dropWhile jsIsSpace).reverse)]
    rw [List.reverse_append]
    rfl
  · intro c hc
    rw [List.mem_reverse] at hc
    exact List.mem_takeWhile_imp hc

theorem takeWhile_eq_nil_of_ws {w : List Char} (hw : ∀ c ∈ w, jsIsSpace c = true) :
    w.takeWhile digitB = [] := by
  cases w with
  | nil => rfl
  | cons c t =>
    rw [List.takeWhile_cons_of_neg]
    simp [ws_not_digit c (hw c (List.mem_cons_self c t))]

theorem dropWhile_eq_self_of_ws {w : List Char} (hw : ∀ c ∈ w, jsIsSpace c = true) :
    w.dropWhile digitB = w := by
  cases w with
  | nil => rfl
  | cons c t =>
    rw [List.dropWhile_cons_of_neg]
    simp [ws_not_digit c (hw c (List.mem_cons_self c t))]

theorem headIsDot_eq_false_of_ws {w : List Char} (hw : ∀ c ∈ w, jsIsSpace c = true) :
    headIsDot w = false := by
  cases w with
  | nil => rfl
  | cons c t => exact headIsDot_cons_of_ne (ws_ne_dot c (hw c (List.mem_cons_self c t)))

/- A trimmed value that matched the numeric shape with no dot is an
optional minus followed by a nonempty digit run. -/
theorem numShape_noDot_shape (t : List Char)
    (h1 : numShape t.asString = true) (h2 : containsDot t.asString = false) :
    ∃ ds, ds ≠ [] ∧ (∀ c ∈ ds, digitB c = true) ∧ (t = '-' :: ds ∨ t = ds) := by
  unfold numShape at h1
  unfold containsDot at h2
  rw [toList_asString] at h1 h2
  simp only [Bool.and_eq_true, Bool.or_eq_true] at h1
  obtain ⟨hds, hrest⟩ := h1
  have hrest_nil : (dropDash t).dropWhile digitB = [] := by
    rcases hrest with hnil | hdot
    · exact List.isEmpty_iff.mp hnil
    · exfalso
      obtain ⟨hhd, _⟩ := hdot
      have hdotmem : '.' ∈ (dropDash t).dropWhile digitB := by
        cases hr : (dropDash t).dropWhile digitB with
        | nil => rw [hr] at hhd; simp [headIsDot] at hhd
        | cons c rest2 =>
          rw [hr] at hhd
          have : c = '.' := by
            by_contra hne
            rw [headIsDot_cons_of_ne hne] at hhd
            simp at hhd
          rw [this]
          exact List.mem_cons_self _ _
      have hsub : '.' ∈ t := by
        have h1' : '.' ∈ dropDash t := (List.dropWhile_sublist _).mem hdotmem
        unfold dropDash at h1'
        split at h1'
        · exact (List.tail_sublist t).mem h1'
        · exact h1'
      simp at h2
      exact h2 hsub
  refine ⟨dropDash t, ?_, ?_, ?_⟩
  · intro hnil
    rw [hnil] at hds
    simp at hds
  · intro c hc
    have := List.takeWhile_append_dropWhile (p := digitB) (l := dropDash t)
    rw [hrest_nil, List.append_nil] at this
    rw [← this] at hc
    exact List.mem_takeWhile_imp hc
  · unfold dropDash
    split
    · next hdash =>
      left
      cases t with
      | nil => simp [headIsDash] at hdash
      | cons c rest =>
        have : c = '-' := by
          by_contra hne
          rw [headIsDash_cons_of_ne hne] at hdash
          simp at hdash
        rw [this]
        rfl
    · right; rfl

/- A string whose trim matched the integer shape parses to an integral
decimal (no fractional digits). -/
theorem jsParseFloat_int (s : String)
    (h1 : numShape (jsTrim s) = true) (h2 : containsDot (jsTrim s) = false) :
    ∃ m : Int, jsParseFloat s = some ⟨m, 0⟩ := by
  unfold jsTrim at h1 h2
  obtain ⟨ds, hne, hdig, hshape⟩ := numShape_noDot_shape (trimL s.toList) h1 h2
  obtain ⟨w, hw, hws⟩ := trimL_decomp s.toList
  obtain ⟨d, dtl, rfl⟩ : ∃ d dtl, ds = d :: dtl := by
    cases ds with
    | nil => exact absurd rfl hne
    | cons d dtl => exact ⟨d, dtl, rfl⟩
  have hdsfull : ∀ c ∈ d :: dtl, digitB c = true := hdig
  have htake : (d :: (dtl ++ w)).takeWhile digitB = d :: dtl := by
    rw [← List.cons_append, List.takeWhile_append_of_pos hdsfull, takeWhile_eq_nil_of_ws hws,
      List.append_nil]
  have hdrop : (d :: (dtl ++ w)).dropWhile digitB = w := by
    rw [← List.cons_append, List.dropWhile_append_of_pos hdsfull, dropWhile_eq_self_of_ws hws]
  rcases hshape with hminus | hplain
  · refine ⟨-((natOfDigits (d :: dtl) : Int) * (10 : Int) ^ (0 : Nat) + 0), ?_⟩
    have hl : s.toList.dropWhile jsIsSpace = '-' :: d :: (dtl ++ w) := by
      rw [hw, hminus]; rfl
    unfold jsParseFloat
    simp only [hl]
    rw [show dropSign ('-' :: d :: (dtl ++ w)) = d :: (dtl ++ w) from rfl]
    rw [htake, hdrop, headIsDot_eq_false_of_ws hws]
    rw [show headIsDash ('-' :: d :: (dtl ++ w)) = true from rfl]
    simp [natOfDigits]
  · refine ⟨((natOfDigits (d :: dtl) : Int) * (10 : Int) ^ (0 : Nat) + 0), ?_⟩
    have hl : s.toList.dropWhile jsIsSpace = d :: (dtl ++ w) := by
      rw [hw, hplain]; rfl
    unfold jsParseFloat
    simp only [hl]
    have hd : digitB d = true := hdsfull d (List.mem_cons_self d dtl)
    rw [dropSign_of_digit hd]
    rw [htake, hdrop, headIsDot_eq_false_of_ws hws]
    rw [headIsDash_cons_of_ne (digit_ne_dash d hd)]
    simp [natOfDigits]

/- Structural facts about the validator loop: short-circuit evaluation in
declaration order, and the extra-key phases that run after it. -/

theorem oor_eq_none_iff (a b : Option Err) : oor a b = none ↔ a = none ∧ b = none := by
  cases a <;> simp [oor]

theorem validateLoop_none_of (urlOk dateOk : String → Bool) (body : Body) (files : Files)
    (fs : List (String × FieldSpec)) (h : validateLoop urlOk dateOk body files fs = none) :
    ∀ p ∈ fs, fieldCheck urlOk dateOk p.1 p.2 body files = none := by
  induction fs with
  | nil => intro p hp; cases hp
  | cons hd tl ih =>
    intro p hp
    unfold validateLoop at h
    rcases hfc : fieldCheck urlOk dateOk hd.1 hd.2 body files with _ | e
    · rw [hfc] at h
      rcases List.mem_cons.mp hp with rfl | hp2
      · exact hfc
      · exact ih h p hp2
    · rw [hfc] at h
      cases h

theorem validateLoop_first (urlOk dateOk : String → Bool) (body : Body) (files : Files)
    (pre : List (String × FieldSpec)) (n : String) (f : FieldSpec)
    (post : List (String × FieldSpec)) (e : Err)
    (hpre : ∀ p ∈ pre, fieldCheck urlOk dateOk p.1 p.2 body files = none)
    (hf : fieldCheck urlOk dateOk n f body files = some e) :
    validateLoop urlOk dateOk body files (pre ++ (n, f) :: post) = some e := by
  induction pre with
  | nil =>
    rw [List.nil_append]
    unfold validateLoop
    rw [hf]
  | cons hd tl ih =>
    rw [List.cons_append]
    unfold validateLoop
    rw [hpre hd (List.mem_cons_self hd tl)]
    exact ih (fun p hp => hpre p (List.mem_cons_of_mem hd hp))

theorem validateLoop_extras (urlOk dateOk : String → Bool) (body : Body) (files : Files)
    (fs : List (String × FieldSpec))
    (h : ∀ p ∈ fs, fieldCheck urlOk dateOk p.1 p.2 body files = none) :
    validateLoop urlOk dateOk body files fs = oor (extraFieldsCheck body) (extraFilesCheck files) := by
  induction fs with
  | nil => rfl
  | cons hd tl ih =>
    unfold validateLoop
    rw [h hd (List.mem_cons_self hd tl)]
    exact ih (fun p hp => h p (List.mem_cons_of_mem hd hp))

theorem extraFields_first (pre : List (String × JSVal)) (k : String) (v : JSVal)
    (rest : List (String × JSVal))
    (hpre : ∀ p ∈ pre, isDeclared p.1 = true) (hk : isDeclared k = false) :
    extraFieldsCheck (pre ++ (k, v) :: rest) = some ⟨"Extra field not allowed: " ++ k, k⟩ := by
  unfold isDeclared at hpre hk
  induction pre with
  | nil =>
    rw [List.nil_append]
    unfold extraFieldsCheck
    rw [hk]
    rfl
  | cons hd tl ih =>
    rw [List.cons_append]
    unfold extraFieldsCheck
    rw [hpre hd (List.mem_cons_self hd tl)]
    exact ih (fun p hp => hpre p (List.mem_cons_of_mem hd hp))

theorem extraFields_none (body : Body) (h : ∀ p ∈ body, isDeclared p.1 = true) :
    extraFieldsCheck body = none := by
  unfold isDeclared at h
  induction body with
  | nil => rfl
  | cons hd tl ih =>
    unfold extraFieldsCheck
    rw [h hd (List.mem_cons_self hd tl)]
    exact ih (fun p hp => h p (List.mem_cons_of_mem hd hp))

theorem extraFiles_first (pre : List (String × JSFile)) (k : String) (fl : JSFile)
    (rest : List (String × JSFile))
    (hpre : ∀ p ∈ pre, isFileDeclared p.1 = true) (hk : isFileDeclared k = false) :
    extraFilesCheck (pre ++ (k, fl) :: rest) = some ⟨"Extra file not allowed: " ++ k, k⟩ := by
  induction pre with
  | nil =>
    rw [List.nil_append]
    unfold extraFilesCheck
    unfold isFileDeclared at hk
    rcases hs : lookupA schema k with _ | f
    · rfl
    · rw [hs] at hk
      simp at hk
      simp [hk]
  | cons hd tl ih =>
    rw [List.cons_append]
    unfold extraFilesCheck
    have hhd := hpre hd (List.mem_cons_self hd tl)
    unfold isFileDeclared at hhd
    rcases hs : lookupA schema hd.1 with _ | f
    · rw [hs] at hhd
      simp at hhd
    · rw [hs] at hhd
      simp at hhd
      simp only [hhd, if_true]
      exact ih (fun p hp => hpre p (List.mem_cons_of_mem hd hp))

/- A required number field that passes its field check carries a present,
non-null, nonblank value whose trimmed form matched the integer shape. -/
theorem fieldCheck_number_facts (urlOk dateOk : String → Bool) (n : String) (f : FieldSpec)
    (body : Body) (files : Files)
    (ht : f.type = FieldType.number) (hreq : f.required = true)
    (hfc : fieldCheck urlOk dateOk n f body files = none) :
    ∃ v, lookupA body n = some v ∧ numShape (jsTrim (jsToString v)) = true ∧
      containsDot (jsTrim (jsToString v)) = false := by
  simp only [fieldCheck] at hfc
  have hcond : ¬(f.type = FieldType.photo ∨ f.type = FieldType.file) := by
    rw [ht]; rintro (hc | hc) <;> cases hc
  rw [if_neg hcond] at hfc
  split at hfc
  · rw [hreq] at hfc
    simp at hfc
  · next v heq =>
    rw [hreq] at hfc
    simp only [if_true] at hfc
    split at hfc
    · simp at hfc
    · split at hfc
      · simp at hfc
      · have hnb : numericBlock n f (jsTrim (jsToString v)) = none := by
          unfold scalarChecks at hfc
          rcases (oor_eq_none_iff _ _).mp hfc with ⟨_, h2⟩
          rcases (oor_eq_none_iff _ _).mp h2 with ⟨_, h3⟩
          rcases (oor_eq_none_iff _ _).mp h3 with ⟨_, h4⟩
          rcases (oor_eq_none_iff _ _).mp h4 with ⟨_, h5⟩
          exact ((oor_eq_none_iff _ _).mp h5).1
        have hna : f.type = FieldType.number ∨ f.type = FieldType.amount := Or.inl ht
        unfold numericBlock at hnb
        rw [if_pos hna] at hnb
        by_cases h1 : numShape (jsTrim (jsToString v)) = false
        · rw [if_pos h1] at hnb
          cases hnb
        · have hshape : numShape (jsTrim (jsToString v)) = true := by
            revert h1
            cases numShape (jsTrim (jsToString v)) <;> simp
          rw [if_neg h1] at hnb
          by_cases h2 : f.type = FieldType.number ∧ containsDot (jsTrim (jsToString v)) = true
          · rw [if_pos h2] at hnb
            cases hnb
          · have hdot : containsDot (jsTrim (jsToString v)) = false := by
              rcases hcd : containsDot (jsTrim (jsToString v))
              · rfl
              · exact absurd ⟨ht, hcd⟩ h2
            exact ⟨v, heq, hshape, hdot⟩

/- The query-builder loop completes without raising on any field list whose
checks all passed, provided every number field is required and no field is
date-typed (true of this schema); the defensive raises are unreachable. -/
theorem buildLoop_ok (urlOk dateOk : String → Bool) (jsDate : JSVal → Option String)
    (body : Body) (files : Files) (fs : List (String × FieldSpec))
    (h : ∀ p ∈ fs, fieldCheck urlOk dateOk p.1 p.2 body files = none ∧
      (p.2.type = FieldType.number → p.2.required = true) ∧
      p.2.type ≠ FieldType.datetime ∧ p.2.type ≠ FieldType.date) :
    ∃ r, buildLoop jsDate body files fs = Except.ok r := by
  induction fs with
  | nil => exact ⟨([], []), rfl⟩
  | cons hd tl ih =>
    obtain ⟨n, f⟩ := hd
    obtain ⟨hfc, hnum, hdt1, hdt2⟩ := h (n, f) (List.mem_cons_self _ _)
    obtain ⟨⟨cs, vs⟩, hr⟩ := ih (fun p hp => h p (List.mem_cons_of_mem _ hp))
    unfold buildLoop
    by_cases hcond : f.type = FieldType.photo ∨ f.type = FieldType.file
    · rw [if_pos hcond]
      rcases hlf : lookupA files n with _ | fl
      · have hreqf : f.required = false := by
          rcases hb : f.required
          · rfl
          · exfalso
            simp only [fieldCheck] at hfc
            rw [if_pos hcond, hlf, hb] at hfc
            simp at hfc
        rw [hreqf]
        simp only [Bool.false_eq_true, if_false]
        exact ⟨(cs, vs), hr⟩
      · exact ⟨(("\"" ++ n ++ "\"") :: cs, SQLValue.bytesVal fl.buffer :: vs), by simp [hlf, hr]⟩
    · rw [if_neg hcond]
      rcases hlb : lookupA body n with _ | v
      · have hreqf : f.required = false := by
          rcases hb : f.required
          · rfl
          · exfalso
            simp only [fieldCheck] at hfc
            rw [if_neg hcond, hlb, hb] at hfc
            simp at hfc
        rw [hreqf]
        simp only [Bool.false_eq_true, if_false]
        exact ⟨(cs, vs), hr⟩
      · have hok : ∃ sv, coerceScalar jsDate n f.type v = Except.ok sv := by
          rcases ht : f.type
          case text => exact ⟨_, rfl⟩
          case description => exact ⟨_, rfl⟩
          case email => exact ⟨_, rfl⟩
          case phone => exact ⟨_, rfl⟩
          case url => exact ⟨_, rfl⟩
          case yesno => exact ⟨_, rfl⟩
          case amount =>
            rcases hpf : jsParseFloat (jsToString v) with _ | q
            · exact ⟨SQLValue.nanVal, by simp [coerceScalar, hpf]⟩
            · exact ⟨SQLValue.decVal q, by simp [coerceScalar, hpf]⟩
          case number =>
            obtain ⟨v2, hl2, hshape, hdot⟩ :=
              fieldCheck_number_facts urlOk dateOk n f body files ht (hnum ht) hfc
            rw [hlb] at hl2
            obtain rfl : v = v2 := by injection hl2
            obtain ⟨m, hm⟩ := jsParseFloat_int (jsToString v) hshape hdot
            refine ⟨SQLValue.intVal (DecNum.intPart ⟨m, 0⟩), ?_⟩
            simp [coerceScalar, hm, DecNum.isInt]
          case datetime => exact absurd ht hdt1
          case date => exact absurd ht hdt2
          case photo => exact absurd (Or.inl ht) hcond
          case file => exact absurd (Or.inr ht) hcond
        obtain ⟨sv, hsv⟩ := hok
        exact ⟨(("\"" ++ n ++ "\"") :: cs, sv :: vs), by simp [hlb, hsv, hr]⟩

/-- Claim C10: a non-required scalar field present with a whitespace-only
value passes validation, and the query builder still includes its column,
binding the trimmed empty string; a field whose key is absent is omitted
from the statement instead. -/
theorem claim_C10 :
    validate urlOkF dateOkF c10Body scenarioFiles = none ∧
    buildInsertQuery jsDateF c10Body scenarioFiles = Except.ok
      ⟨"INSERT INTO \"Ring\" (\"name\",\"phone\",\"email\",\"ring_size\",\"ss\",\"caret\",\"aadhar\") VALUES ($1,$2,$3,$4,$5,$6,$7) RETURNING id, created_at",
       [SQLValue.strVal "Alice", SQLValue.strVal "9876543210", SQLValue.strVal "",
        SQLValue.decVal ⟨12050, 2⟩, SQLValue.bytesVal [137, 80], SQLValue.intVal 2,
        SQLValue.bytesVal [255, 216]]⟩ ∧
    buildInsertQuery jsDateF scenarioABody scenarioFiles = Except.ok
      ⟨"INSERT INTO \"Ring\" (\"name\",\"phone\",\"ring_size\",\"ss\",\"caret\",\"aadhar\") VALUES ($1,$2,$3,$4,$5,$6) RETURNING id, created_at",
       [SQLValue.strVal "Alice", SQLValue.strVal "9876543210", SQLValue.decVal ⟨12050, 2⟩,
        SQLValue.bytesVal [137, 80], SQLValue.intVal 2, SQLValue.bytesVal [255, 216]]⟩ := by
  refine ⟨by decide, by rfl, by rfl⟩

/-- Claim C3 fails on the code: the builder's yesno coercion lowercases the
value only for the comparison with "true"; the inputs "Yes" and "ON" are
compared case-sensitively against "yes"/"on" and coerce to false, while
the claim reads them as true. -/
theorem claim_C3_counterexample :
    claimYesnoSpec (JSVal.str "Yes") = true ∧ jsYesno (JSVal.str "Yes") = false ∧
    coerceScalar jsDateF "newsletter" FieldType.yesno (JSVal.str "Yes") =
      Except.ok (SQLValue.boolVal false) := by
  refine ⟨by decide, by decide, by rfl⟩

/-- Claim C3 as amended: the bound boolean is true iff the lowercased text
equals "true", or the raw value is exactly the string "1", "yes" or "on"
(case-sensitively), or the number 1; so "TRUE" coerces to true but "Yes"
and "ON" do not. -/
theorem claim_C3_amended (jsDate : JSVal → Option String) (n : String) (v : JSVal) :
    coerceScalar jsDate n FieldType.yesno v = Except.ok (SQLValue.boolVal (jsYesno v)) ∧
    (jsYesno v = true ↔ toLowerS (jsToString v) = "true" ∨ v = JSVal.str "1" ∨
      v = JSVal.num 1 ∨ v = JSVal.str "yes" ∨ v = JSVal.str "on") := by
  refine ⟨rfl, ?_⟩
  simp only [jsYesno, Bool.or_eq_true, beq_iff_eq]
  tauto

/-- Claim C3 amended, exercised at concrete inputs through the theorem. -/
theorem claim_C3_witness :
    coerceScalar jsDateF "newsletter" FieldType.yesno (JSVal.str "TRUE") =
      Except.ok (SQLValue.boolVal (jsYesno (JSVal.str "TRUE"))) ∧
    jsYesno (JSVal.str "TRUE") = true :=
  ⟨(claim_C3_amended jsDateF "newsletter" (JSVal.str "TRUE")).1,
   (claim_C3_amended jsDateF "newsletter" (JSVal.str "TRUE")).2.mpr (Or.inl (by decide))⟩

/-- Claim C1 fails on the code in its message for extra file keys: an
undeclared (or non-file) key in the file map is reported as "Extra file
not allowed", not "Extra field not allowed", as evaluation at a concrete
record shows. -/
theorem claim_C1_counterexample :
    validate urlOkF dateOkF scenarioABody extraFileMap =
      some ⟨"Extra file not allowed: name", "name"⟩ ∧
    ("Extra file not allowed: name" : String) ≠ "Extra field not allowed: name" := by
  refine ⟨by decide, by decide⟩

/-- Claim C1 as amended: the validator checks declared fields in schema
declaration order and returns the first violation; when all declared
checks pass, unknown scalar keys are rejected in arrival order with
message "Extra field not allowed: key", and afterwards unknown or
non-photo/file keys of the file map are rejected with message "Extra file
not allowed: key". -/
theorem claim_C1 (urlOk dateOk : String → Bool) (body : Body) (files : Files) :
    (∀ pre n f post e, schema = pre ++ (n, f) :: post →
      (∀ p ∈ pre, fieldCheck urlOk dateOk p.1 p.2 body files = none) →
      fieldCheck urlOk dateOk n f body files = some e →
      validate urlOk dateOk body files = some e) ∧
    (∀ pre k v rest, (∀ p ∈ schema, fieldCheck urlOk dateOk p.1 p.2 body files = none) →
      body = pre ++ (k, v) :: rest →
      (∀ p ∈ pre, isDeclared p.1 = true) → isDeclared k = false →
      validate urlOk dateOk body files = some ⟨"Extra field not allowed: " ++ k, k⟩) ∧
    (∀ pre k fl rest, (∀ p ∈ schema, fieldCheck urlOk dateOk p.1 p.2 body files = none) →
      (∀ p ∈ body, isDeclared p.1 = true) →
      files = pre ++ (k, fl) :: rest →
      (∀ p ∈ pre, isFileDeclared p.1 = true) → isFileDeclared k = false →
      validate urlOk dateOk body files = some ⟨"Extra file not allowed: " ++ k, k⟩) := by
  refine ⟨?_, ?_, ?_⟩
  · intro pre n f post e hs hpre hf
    unfold validate
    rw [hs]
    exact validateLoop_first urlOk dateOk body files pre n f post e hpre hf
  · intro pre k v rest hall hbody hpredecl hk
    unfold validate
    rw [validateLoop_extras urlOk dateOk body files schema hall, hbody,
      extraFields_first pre k v rest hpredecl hk]
    rfl
  · intro pre k fl rest hall hbodydecl hfiles hpredecl hk
    unfold validate
    rw [validateLoop_extras urlOk dateOk body files schema hall,
      extraFields_none body hbodydecl, hfiles,
      extraFiles_first pre k fl rest hpredecl hk]
    rfl

/-- Claim C1 amended, exercised at a concrete record through the theorem:
an extra file key for the declared non-file field name yields the extra
file error after all declared checks pass. -/
theorem claim_C1_witness :
    validate urlOkF dateOkF scenarioABody extraFileMap =
      some ⟨"Extra file not allowed: " ++ "name", "name"⟩ :=
  (claim_C1 urlOkF dateOkF scenarioABody extraFileMap).2.2
    [("ss", ssFile), ("aadhar", aadharFile)] "name" ssFile []
    (by decide) (by decide) rfl (by decide) (by decide)

/-- Claim C9: on any record and file map on which the validator returns no
error, the query builder completes without raising, for every host date
parser; its defensive required-field raises and its number and date
coercion raises are unreachable. -/
theorem claim_C9 (urlOk dateOk : String → Bool) (jsDate : JSVal → Option String)
    (body : Body) (files : Files)
    (h : validate urlOk dateOk body files = none) :
    ∃ q, buildInsertQuery jsDate body files = Except.ok q := by
  have hall := validateLoop_none_of urlOk dateOk body files schema h
  have hside : ∀ p ∈ schema, fieldCheck urlOk dateOk p.1 p.2 body files = none ∧
      (p.2.type = FieldType.number → p.2.required = true) ∧
      p.2.type ≠ FieldType.datetime ∧ p.2.type ≠ FieldType.date := by
    intro p hp
    refine ⟨hall p hp, ?_, ?_, ?_⟩ <;>
    · simp only [schema, nameF, phoneF, emailF, ringSizeF, ssF, caretF, aadharF,
        List.mem_cons, List.not_mem_nil, or_false] at hp
      rcases hp with rfl | rfl | rfl | rfl | rfl | rfl | rfl <;> decide
  obtain ⟨⟨cs, vs⟩, hr⟩ := buildLoop_ok urlOk dateOk jsDate body files schema hside
  unfold buildInsertQuery
  rw [hr]
  exact ⟨_, rfl⟩

/-- Claim C9, exercised at the concrete passing record of scenario A
through the theorem. -/
theorem claim_C9_witness :
    validate urlOkF dateOkF scenarioABody scenarioFiles = none ∧
    ∃ q, buildInsertQuery jsDateF scenarioABody scenarioFiles = Except.ok q :=
  ⟨by decide, claim_C9 urlOkF dateOkF jsDateF scenarioABody scenarioFiles (by decide)⟩

/- The size rule of validateFile on this schema's photo fields: rejection
exactly above ten megabytes (their limit string is empty, so the enforced
default of 10 megabytes coincides with fileConfig.maxSize = 10), with the
extension check skipped by the sentinel. -/
theorem validateFile_photo_size (f : FieldSpec) (hf : f = ssF ∨ f = aadharF) (file : JSFile) :
    (validateFile file f).isSome = true ↔ maxMegabytesOf f * 1048576 < file.size := by
  have key : ∀ g : FieldSpec, g.limit = "" → g.fileConfig = some ⟨10, ExtSpec.all⟩ →
      ((validateFile file g).isSome = true ↔ 10485760 < file.size) := by
    intro g hlim hcfg
    unfold validateFile
    rw [hlim]
    constructor
    · intro hsome
      by_contra hle
      push_neg at hle
      have hnb : ¬((file.size : Int) > (10 : Int) * 1048576) := by
        push_cast
        omega
      simp only [if_pos rfl, hcfg, hnb, if_false] at hsome
      simp at hsome
      omega
    · intro hgt
      have hb : ((file.size : Int) > (10 : Int) * 1048576) := by
        push_cast
        omega
      simp [hb, hgt]
  rcases hf with rfl | rfl
  · simpa [maxMegabytesOf, ssF] using key ssF rfl rfl
  · simpa [maxMegabytesOf, aadharF] using key aadharF rfl rfl

/-- Claim C2: a photo/file field of this schema rejects a present file
exactly when its size exceeds the field's file-constraint megabyte limit
times 1048576 (extension sentinel "all" admits every name), and an
oversized ss upload makes the whole validation fail no matter what the
rest of the record contains. -/
theorem claim_C2 :
    (∀ nm f file, (nm, f) ∈ schema → (f.type = FieldType.photo ∨ f.type = FieldType.file) →
      ((validateFile file f).isSome = true ↔ maxMegabytesOf f * 1048576 < file.size)) ∧
    (∀ urlOk dateOk body files file, lookupA files "ss" = some file →
      10485760 < file.size → validate urlOk dateOk body files ≠ none) := by
  constructor
  · intro nm f file hmem htype
    simp only [schema, List.mem_cons, List.not_mem_nil, or_false, Prod.mk.injEq] at hmem
    rcases hmem with ⟨_, rfl⟩ | ⟨_, rfl⟩ | ⟨_, rfl⟩ | ⟨_, rfl⟩ | ⟨_, rfl⟩ | ⟨_, rfl⟩ | ⟨_, rfl⟩
    · exact absurd htype (by decide)
    · exact absurd htype (by decide)
    · exact absurd htype (by decide)
    · exact absurd htype (by decide)
    · exact validateFile_photo_size ssF (Or.inl rfl) file
    · exact absurd htype (by decide)
    · exact validateFile_photo_size aadharF (Or.inr rfl) file
  · intro urlOk dateOk body files file hlf hbig hval
    have hss := validateLoop_none_of urlOk dateOk body files schema hval ("ss", ssF)
      (by decide)
    simp only [fieldCheck] at hss
    rw [if_pos (by decide : ssF.type = FieldType.photo ∨ ssF.type = FieldType.file),
      hlf] at hss
    have hvs : (validateFile file ssF).isSome = true :=
      (validateFile_photo_size ssF (Or.inl rfl) file).mpr (by simpa [maxMegabytesOf, ssF] using hbig)
    have hss2 : (match validateFile file ssF with
        | some msg => some (⟨msg, "ss"⟩ : Err)
        | none => none) = none := hss
    rcases hvf : validateFile file ssF with _ | msg
    · rw [hvf] at hvs
      cases hvs
    · rw [hvf] at hss2
      cases hss2

/-- Claim C2, exercised through the theorem at an oversized upload. -/
theorem claim_C2_witness :
    ((validateFile bigFile ssF).isSome = true) ∧
    validate urlOkF dateOkF scenarioABody bigFiles ≠ none :=
  ⟨(claim_C2.1 "ss" ssF bigFile (by decide) (by decide)).mpr (by decide),
   claim_C2.2 urlOkF dateOkF scenarioABody bigFiles bigFile (by decide) (by decide)⟩

/-- Claim C4: a required scalar field that is absent, null, or
whitespace-only after trimming fails its check with the error message
"name is required" carrying the field name; a required file field with no
upload fails the same way; a non-required blank scalar field is skipped
with no further rules run; and omitting ring_size from the passing record
of scenario A yields exactly that required error. -/
theorem claim_C4 :
    (∀ (urlOk dateOk : String → Bool) n (f : FieldSpec) body files,
      f.required = true → f.type ≠ FieldType.photo → f.type ≠ FieldType.file →
      isBlankOpt (lookupA body n) = true →
      fieldCheck urlOk dateOk n f body files = some ⟨n ++ " is required", n⟩) ∧
    (∀ (urlOk dateOk : String → Bool) n (f : FieldSpec) body files,
      f.required = true → (f.type = FieldType.photo ∨ f.type = FieldType.file) →
      lookupA files n = none →
      fieldCheck urlOk dateOk n f body files = some ⟨n ++ " is required", n⟩) ∧
    (∀ (urlOk dateOk : String → Bool) n (f : FieldSpec) body files,
      f.required = false → f.type ≠ FieldType.photo → f.type ≠ FieldType.file →
      isBlankOpt (lookupA body n) = true →
      fieldCheck urlOk dateOk n f body files = none) ∧
    (validate urlOkF dateOkF scenarioBBody scenarioFiles =
      some ⟨"ring_size is required", "ring_size"⟩) := by
  refine ⟨?_, ?_, ?_, by decide⟩
  · intro urlOk dateOk n f body files hreq ht1 ht2 hblank
    have hcond : ¬(f.type = FieldType.photo ∨ f.type = FieldType.file) := by
      rintro (hc | hc)
      · exact ht1 hc
      · exact ht2 hc
    simp only [fieldCheck]
    rw [if_neg hcond]
    rcases hlb : lookupA body n with _ | v
    · simp [hreq]
    · rw [hlb] at hblank
      rcases v with s | m | _
      · unfold isBlankOpt at hblank
        simp only [beq_iff_eq] at hblank
        simp [hreq, hblank]
      · unfold isBlankOpt at hblank
        simp only [beq_iff_eq] at hblank
        simp [hreq, hblank]
      · simp [hreq]
  · intro urlOk dateOk n f body files hreq htype hlf
    simp only [fieldCheck]
    rw [if_pos htype, hlf, hreq]
    simp
  · intro urlOk dateOk n f body files hreq ht1 ht2 hblank
    have hcond : ¬(f.type = FieldType.photo ∨ f.type = FieldType.file) := by
      rintro (hc | hc)
      · exact ht1 hc
      · exact ht2 hc
    simp only [fieldCheck]
    rw [if_neg hcond]
    rcases hlb : lookupA body n with _ | v
    · simp [hreq]
    · rw [hlb] at hblank
      rcases v with s | m | _
      · unfold isBlankOpt at hblank
        simp only [beq_iff_eq] at hblank
        simp [hreq, hblank]
      · unfold isBlankOpt at hblank
        simp only [beq_iff_eq] at hblank
        simp [hreq, hblank]
      · simp [hreq]

/-- Claim C4, exercised through the theorem: the required scalar ring_size
absent from the scenario B record yields its required error at the field
check, and the required file ss absent from an empty file map yields the
same-shaped error. -/
theorem claim_C4_witness :
    fieldCheck urlOkF dateOkF "ring_size" ringSizeF scenarioBBody scenarioFiles =
      some ⟨"ring_size" ++ " is required", "ring_size"⟩ ∧
    fieldCheck urlOkF dateOkF "ss" ssF scenarioBBody [] =
      some ⟨"ss" ++ " is required", "ss"⟩ ∧
    fieldCheck urlOkF dateOkF "email" emailF c10Body scenarioFiles = none :=
  ⟨claim_C4.1 urlOkF dateOkF "ring_size" ringSizeF scenarioBBody scenarioFiles rfl
      (by decide) (by decide) (by decide),
   claim_C4.2.1 urlOkF dateOkF "ss" ssF scenarioBBody [] rfl (Or.inl rfl) rfl,
   claim_C4.2.2.1 urlOkF dateOkF "email" emailF c10Body scenarioFiles rfl
      (by decide) (by decide) (by decide)⟩

/-- Claim C5: on a present number-field value matching the numeric shape,
the validator rejects a decimal point with the message "name must be an
integer (no decimals)", rejects a leading minus unless allowNegative,
rejects an absolute value whose digit count exceeds the parsed limit
(default 10), and rejects values above 2147483647 when the limit is at
most 9 and above 9223372036854775807 when at most 18, all in exact
integer arithmetic; scenario C yields the decimal-point error for caret
at the full validator. -/
theorem claim_C5 (n : String) (f : FieldSpec) (sv : String)
    (ht : f.type = FieldType.number) (hshape : numShape sv = true) :
    (containsDot sv = true →
      numericBlock n f sv = some ⟨n ++ " must be an integer (no decimals)", n⟩) ∧
    (containsDot sv = false → f.allowNegative = false → startsDash sv = true →
      (numericBlock n f sv).isSome = true) ∧
    (containsDot sv = false →
      (natDigitCount ((jsParseInt sv).getD 0).natAbs : Int) > jsParseIntOrD 10 f.limit →
      (numericBlock n f sv).isSome = true) ∧
    (containsDot sv = false → jsParseIntOrD 10 f.limit ≤ 9 →
      ((jsParseInt sv).getD 0).natAbs > 2147483647 →
      (numericBlock n f sv).isSome = true) ∧
    (containsDot sv = false → jsParseIntOrD 10 f.limit ≤ 18 →
      ((jsParseInt sv).getD 0).natAbs > 9223372036854775807 →
      (numericBlock n f sv).isSome = true) ∧
    (jsParseIntOrD 10 "" = 10) ∧
    (validate urlOkF dateOkF scenarioCBody scenarioFiles =
      some ⟨"caret must be an integer (no decimals)", "caret"⟩) := by
  have hna : f.type = FieldType.number ∨ f.type = FieldType.amount := Or.inl ht
  have hsh : ¬(numShape sv = false) := by simp [hshape]
  refine ⟨?_, ?_, ?_, ?_, ?_, by decide, by decide⟩
  · intro hdot
    unfold numericBlock
    rw [if_pos hna, if_neg hsh, if_pos ⟨ht, hdot⟩]
  · intro hdot hneg hdash
    unfold numericBlock
    rw [if_pos hna, if_neg hsh, if_neg (by simp [hdot]), if_pos ⟨hneg, hdash⟩]
    rfl
  · intro hdot hdig
    unfold numericBlock
    rw [if_pos hna, if_neg hsh, if_neg (by simp [hdot])]
    by_cases hneg : f.allowNegative = false ∧ startsDash sv = true
    · rw [if_pos hneg]
      rfl
    · rw [if_neg hneg, if_pos ht]
      unfold numberRange
      rw [if_pos hdig]
      rfl
  · intro hdot h9 hval
    unfold numericBlock
    rw [if_pos hna, if_neg hsh, if_neg (by simp [hdot])]
    by_cases hneg : f.allowNegative = false ∧ startsDash sv = true
    · rw [if_pos hneg]
      rfl
    · rw [if_neg hneg, if_pos ht]
      unfold numberRange
      by_cases hdig : (natDigitCount ((jsParseInt sv).getD 0).natAbs : Int) > jsParseIntOrD 10 f.limit
      · rw [if_pos hdig]
        rfl
      · rw [if_neg hdig, if_pos ⟨h9, hval⟩]
        rfl
  · intro hdot h18 hval
    unfold numericBlock
    rw [if_pos hna, if_neg hsh, if_neg (by simp [hdot])]
    by_cases hneg : f.allowNegative = false ∧ startsDash sv = true
    · rw [if_pos hneg]
      rfl
    · rw [if_neg hneg, if_pos ht]
      unfold numberRange
      by_cases hdig : (natDigitCount ((jsParseInt sv).getD 0).natAbs : Int) > jsParseIntOrD 10 f.limit
      · rw [if_pos hdig]
        rfl
      · rw [if_neg hdig]
        by_cases h9 : jsParseIntOrD 10 f.limit ≤ 9 ∧ ((jsParseInt sv).getD 0).natAbs > 2147483647
        · rw [if_pos h9]
          rfl
        · rw [if_neg h9, if_pos ⟨h18, hval⟩]
          rfl

/-- Claim C5, exercised through the theorem at the scenario C value 2.5
for the caret field. -/
theorem claim_C5_witness :
    numericBlock "caret" caretF "2.5" =
      some ⟨"caret" ++ " must be an integer (no decimals)", "caret"⟩ :=
  (claim_C5 "caret" caretF "2.5" rfl (by decide)).1 (by decide)

/-- Claim C6: on a present amount-field value matching the numeric shape,
with parsed limit l and scale s, the validator rejects exactly when the
sign-stripped integer part before the dot is longer than l minus s, or
the fractional part is longer than s, or the value has a leading minus
while allowNegative is off. -/
theorem claim_C6 (n : String) (f : FieldSpec) (sv : String) (ht : f.type = FieldType.amount)
    (hshape : numShape sv = true) (l s : Int)
    (hl : (if f.limit = "" then some 10 else jsParseInt f.limit) = some l)
    (hs : (if f.scale = "" then some 2 else jsParseInt f.scale) = some s) :
    (numericBlock n f sv).isSome = true ↔
      (((splitDot (removeFirstDash sv)).1.length : Int) > l - s ∨
       ((splitDot (removeFirstDash sv)).2.length : Int) > s ∨
       (f.allowNegative = false ∧ startsDash sv = true)) := by
  have hna : f.type = FieldType.number ∨ f.type = FieldType.amount := Or.inr ht
  have hnum : f.type ≠ FieldType.number := by rw [ht]; decide
  unfold numericBlock
  rw [if_pos hna, if_neg (by simp [hshape]), if_neg (by simp [hnum])]
  by_cases hneg : f.allowNegative = false ∧ startsDash sv = true
  · rw [if_pos hneg]
    simp [hneg]
  · rw [if_neg hneg, if_neg hnum]
    unfold amountPrec
    rw [hl, hs]
    by_cases h1 : ((splitDot (removeFirstDash sv)).1.length : Int) > l - s
    · simp [gtO, h1]
    · by_cases h2 : ((splitDot (removeFirstDash sv)).2.length : Int) > s
      · simp [gtO, h1, h2]
      · simp [gtO, h1, h2, hneg]

/-- Claim C6, exercised through the theorem: a nine-digit integer part
overflows the eight integer digits of ring_size (limit 10, scale 2). -/
theorem claim_C6_witness :
    (numericBlock "ring_size" ringSizeF "123456789.1").isSome = true :=
  (claim_C6 "ring_size" ringSizeF "123456789.1" rfl (by decide) 10 2 (by decide)
    (by decide)).mpr (Or.inl (by decide))

/-- Claim C7: on a present phone-field value, the validator rejects with
"name must be a valid phone number" exactly the values that, after
removing whitespace, are not an optional leading plus followed by 10 to 15
characters drawn from digits, whitespace, hyphens and parentheses; a value
of accepted shape is rejected iff its digit count alone exceeds the parsed
limit (default 15); scenario D's five-digit phone yields that error at the
full validator. -/
theorem claim_C7 (urlOk dateOk : String → Bool) (n : String) (f : FieldSpec) (sv : String)
    (ht : f.type = FieldType.phone) :
    (phoneShape (removeSpacesS sv) = false →
      scalarChecks urlOk dateOk n f sv = some ⟨n ++ " must be a valid phone number", n⟩) ∧
    (phoneShape (removeSpacesS sv) = true →
      ((scalarChecks urlOk dateOk n f sv).isSome = true ↔
        (countDigits sv : Int) > jsParseIntOrD 15 f.limit)) ∧
    (jsParseIntOrD 15 "" = 15) ∧
    (validate urlOkF dateOkF scenarioDBody scenarioFiles =
      some ⟨"phone must be a valid phone number", "phone"⟩) := by
  have he : emailBlock n f sv = none := by simp [emailBlock, ht]
  have hu : urlBlock urlOk n f sv = none := by simp [urlBlock, ht]
  have htx : textLenBlock n f sv = none := by simp [textLenBlock, ht]
  have hnb : numericBlock n f sv = none := by simp [numericBlock, ht]
  have hdt : dateBlock dateOk n f sv = none := by simp [dateBlock, ht]
  have hsc : scalarChecks urlOk dateOk n f sv = phoneBlock n f sv := by
    unfold scalarChecks
    rw [he, hu, htx, hnb, hdt]
    cases phoneBlock n f sv <;> rfl
  refine ⟨?_, ?_, by decide, by decide⟩
  · intro hbad
    rw [hsc]
    unfold phoneBlock
    rw [if_pos ht, if_pos hbad]
  · intro hgood
    rw [hsc]
    unfold phoneBlock
    rw [if_pos ht, if_neg (by simp [hgood])]
    by_cases hd : (countDigits sv : Int) > jsParseIntOrD 15 f.limit
    · simp [hd]
    · simp [hd]

/-- Claim C7, exercised through the theorem at the scenario D phone value,
which is too short after whitespace removal. -/
theorem claim_C7_witness :
    scalarChecks urlOkF dateOkF "phone" phoneF "12345" =
      some ⟨"phone" ++ " must be a valid phone number", "phone"⟩ :=
  (claim_C7 urlOkF dateOkF "phone" phoneF "12345" rfl).1 (by decide)

/-- Claim C8: the DDL generator emits a single create-table-if-not-exists
statement equal to the specification-shaped assembly (identity primary key
first, one column per field in declaration order with NOT NULL iff
required and UNIQUE iff unique, creation-timestamp column with a
server-side default last) and to its explicit text for this schema; the
type mapper sends number to INTEGER for parsed digit limits up to 9,
BIGINT up to 18, NUMERIC of the digit count beyond, bounded strings with
defaults 50/500 for text/description, 255 for email, 500 for url, the
limit (default 15) for phone, DECIMAL of limit and scale (defaults 10, 2)
for amount, and BYTEA blobs for photo/file. -/
theorem claim_C8 :
    createTableSQL = ddlSpec ∧
    createTableSQL = "CREATE TABLE IF NOT EXISTS \"Ring\" (\n\"id\" BIGINT GENERATED ALWAYS AS IDENTITY PRIMARY KEY,\n\"name\" VARCHAR(20) NOT NULL,\n\"phone\" VARCHAR(10) NOT NULL,\n\"email\" VARCHAR(255),\n\"ring_size\" DECIMAL(10, 2) NOT NULL,\n\"ss\" BYTEA NOT NULL,\n\"caret\" INTEGER NOT NULL,\n\"aadhar\" BYTEA NOT NULL,\n\"created_at\" TIMESTAMP NOT NULL DEFAULT CURRENT_TIMESTAMP\n);" ∧
    (∀ f : FieldSpec,
      (jsParseIntOrD 10 f.limit ≤ 9 → typeMap FieldType.number f = "INTEGER") ∧
      (9 < jsParseIntOrD 10 f.limit → jsParseIntOrD 10 f.limit ≤ 18 →
        typeMap FieldType.number f = "BIGINT") ∧
      (18 < jsParseIntOrD 10 f.limit →
        typeMap FieldType.number f = "NUMERIC(" ++ toString (jsParseIntOrD 10 f.limit) ++ ")")) ∧
    (∀ f : FieldSpec, f.limit = "" →
      typeMap FieldType.text f = "VARCHAR(50)" ∧
      typeMap FieldType.description f = "VARCHAR(500)" ∧
      typeMap FieldType.phone f = "VARCHAR(15)") ∧
    (∀ f : FieldSpec, f.limit = "" → f.scale = "" →
      typeMap FieldType.amount f = "DECIMAL(10, 2)") ∧
    (∀ f : FieldSpec,
      typeMap FieldType.email f = "VARCHAR(255)" ∧ typeMap FieldType.url f = "VARCHAR(500)" ∧
      typeMap FieldType.photo f = "BYTEA" ∧ typeMap FieldType.file f = "BYTEA" ∧
      typeMap FieldType.yesno f = "BOOLEAN" ∧ typeMap FieldType.datetime f = "TIMESTAMP" ∧
      typeMap FieldType.date f = "DATE") := by
  refine ⟨by decide, by decide, ?_, ?_, ?_, ?_⟩
  · intro f
    refine ⟨?_, ?_, ?_⟩
    · intro h9
      simp only [typeMap]
      rw [if_pos h9]
    · intro h9 h18
      simp only [typeMap]
      rw [if_neg (by omega), if_pos h18]
    · intro h18
      simp only [typeMap]
      rw [if_neg (by omega), if_neg (by omega)]
  · intro f hlim
    exact ⟨by simp [typeMap, hlim], by simp [typeMap, hlim], by simp [typeMap, hlim]⟩
  · intro f hlim hsc
    simp [typeMap, hlim, hsc]
  · intro f
    exact ⟨rfl, rfl, rfl, rfl, rfl, rfl, rfl⟩

/-- Claim C8, exercised through the theorem: caret's digit limit 2 maps to
INTEGER, and the defaults apply at the email field's empty limit. -/
theorem claim_C8_witness :
    typeMap FieldType.number caretF = "INTEGER" ∧
    typeMap FieldType.text emailF = "VARCHAR(50)" :=
  ⟨(claim_C8.2.2.1 caretF).1 (by decide), ((claim_C8.2.2.2.1 emailF) rfl).1⟩
